import Mathlib

/-!
Shallow embedding of the playback-synchronization core of
`src/src/libs/ffmpeg/lv_ffmpeg.c`: the bounded video frame ring buffer
(`video_buffer_t` with `video_buffer_init` / `video_buffer_push` /
`video_buffer_pop`), the playback-clock drift policy
(`should_skip_video_frame` / `should_repeat_video_frame`), the video-packet
handling of the two producer loops (`ffmpeg_playback_thread` and
`ffmpeg_update_next_frame`), and the lifecycle control paths
(`lv_ffmpeg_player_set_cmd` STOP and `ffmpeg_close`).

Machine integers are modelled as `Int`/`Nat`; `AV_NOPTS_VALUE` is the
concrete sentinel `INT64_MIN` used by the C code.  External collaborators
(demuxer, codec, resampler, renderer) are parameters of the loop-step
functions: an input value describes what the collaborator returned.
-/

namespace LvFfmpeg

/-- Constant `AV_NOPTS_VALUE` from libavutil: `INT64_MIN`, the "timestamp unset"
sentinel. -/
def AV_NOPTS_VALUE : Int := -(2 ^ 63)

/-- Constant `AV_PIX_FMT_NONE` from libavutil (= -1), the "undefined pixel format"
sentinel checked by the frame-validation code. -/
def AV_PIX_FMT_NONE : Int := -1

/-- Macro `VIDEO_BUFFER_SIZE` (5) — fixed capacity of the video frame ring
buffer. -/
def VIDEO_BUFFER_SIZE : Nat := 5

/-- A decoded `AVFrame` as far as the core is concerned: pixel dimensions,
format tag and presentation timestamp (all signed machine integers in C). -/
structure AVFrame where
  width : Int
  height : Int
  format : Int
  pts : Int
  deriving DecidableEq, Repr

/-- Struct `video_buffer_t`: the frame ring buffer.  `frames` models the C array
`AVFrame *frames[VIDEO_BUFFER_SIZE]` as a length-5 list of optional frames
(`none` = `NULL` / freed slot).  The mutex and condition variable of the C
struct serialize `push`/`pop`; the functions below are the bodies of those
critical sections. -/
structure video_buffer_t where
  frames : List (Option AVFrame)
  write_idx : Nat
  read_idx : Nat
  count : Nat
  initialized : Bool
  deriving DecidableEq, Repr

/-- Function `video_buffer_init` (success path): zeroed cursors and count, empty
slots, `initialized = true`. -/
def video_buffer_init : video_buffer_t :=
  { frames := List.replicate VIDEO_BUFFER_SIZE none
    write_idx := 0
    read_idx := 0
    count := 0
    initialized := true }

/-- Function `video_buffer_push`.  Here `frame = none` models a `NULL` frame argument;
`clone_ok` tells whether the external `av_frame_clone` call succeeds (its
result, the clone of `f` or `NULL`, is stored at the write cursor exactly
as in the C code).  Returns the C result (`0` ok, `-1` error) with the new
buffer state.  When the buffer is full the slot at the read cursor is
released (freed frame modelled as `none`) and the read cursor advances
before the clone is attempted. -/
def video_buffer_push (buf : video_buffer_t) (frame : Option AVFrame)
    (clone_ok : Bool) : Int × video_buffer_t :=
  match frame with
  | none => (-1, buf)
  | some f =>
    if buf.initialized = false then (-1, buf)
    else
      let buf1 :=
        if VIDEO_BUFFER_SIZE ≤ buf.count then
          { buf with
            frames := buf.frames.set buf.read_idx none
            read_idx := (buf.read_idx + 1) % VIDEO_BUFFER_SIZE
            count := buf.count - 1 }
        else buf
      let stored : Option AVFrame := if clone_ok then some f else none
      let buf2 := { buf1 with frames := buf1.frames.set buf1.write_idx stored }
      if clone_ok = false then (-1, buf2)
      else
        (0, { buf2 with
              write_idx := (buf2.write_idx + 1) % VIDEO_BUFFER_SIZE
              count := buf2.count + 1 })

/-- Function `video_buffer_pop`: non-blocking pop.  Returns `NULL` (`none`) when the
buffer is uninitialized or empty, otherwise the frame at the read cursor,
clearing that slot, advancing the read cursor modulo the capacity and
decrementing the count. -/
def video_buffer_pop (buf : video_buffer_t) : Option AVFrame × video_buffer_t :=
  if buf.initialized = false then (none, buf)
  else if buf.count = 0 then (none, buf)
  else
    (buf.frames.getD buf.read_idx none,
     { buf with
       frames := buf.frames.set buf.read_idx none
       read_idx := (buf.read_idx + 1) % VIDEO_BUFFER_SIZE
       count := buf.count - 1 })

/-- Well-formedness of a live ring buffer: established by
`video_buffer_init` and preserved by `push`/`pop` (proved below). -/
def video_buffer_wf (buf : video_buffer_t) : Bool :=
  buf.initialized
    && buf.frames.length = VIDEO_BUFFER_SIZE
    && buf.count ≤ VIDEO_BUFFER_SIZE
    && buf.read_idx < VIDEO_BUFFER_SIZE
    && buf.write_idx = (buf.read_idx + buf.count) % VIDEO_BUFFER_SIZE

/-- Abstraction of the ring buffer to the FIFO sequence it holds: the
`count` slots starting at the read cursor, oldest first. -/
def bufList (buf : video_buffer_t) : List (Option AVFrame) :=
  (List.range buf.count).map
    (fun i => buf.frames.getD ((buf.read_idx + i) % VIDEO_BUFFER_SIZE) none)

/-- Pushing a whole sequence of frames (all clones succeeding), oldest
first. -/
def pushSeq (buf : video_buffer_t) (l : List AVFrame) : video_buffer_t :=
  l.foldl (fun b f => (video_buffer_push b (some f) true).2) buf

/-- Popping `n` times, collecting the returned values in order. -/
def popSeq (buf : video_buffer_t) : Nat → List (Option AVFrame) × video_buffer_t
  | 0 => ([], buf)
  | n + 1 =>
    let r := video_buffer_pop buf
    let rest := popSeq r.2 n
    (r.1 :: rest.1, rest.2)

/-- The playback-clock, lifecycle and synchronization fields of
`struct ffmpeg_context_s`, together with the embedded video ring buffer.
`audio_enabled` is `player->audio_enabled` (the player object is reachable
from the context through `ffmpeg_ctx->player`).  `time_base_num/den` is the
video stream's `time_base` used by `pts_to_ms`. -/
structure ffmpeg_context_s where
  video_pts : Int
  audio_pts : Int
  video_clock : Int
  audio_clock : Int
  start_time : Int
  sync_threshold : Int
  max_frame_delay : Int
  frame_drop_count : Int
  frame_repeat_count : Int
  sync_enabled : Bool
  has_audio : Bool
  audio_enabled : Bool
  is_playing : Bool
  is_paused : Bool
  consecutive_skips : Int
  skip_this_frame : Bool
  time_base_num : Int
  time_base_den : Int
  audio_time_base_num : Int
  audio_time_base_den : Int
  video_buffer : video_buffer_t
  deriving DecidableEq, Repr

/-- Model of `av_rescale_q(a, b, c)` with the default `AV_ROUND_NEAR_INF` rounding
(round the rational `a*b.num*c.den / (b.den*c.num)` to the nearest integer,
halves away from zero), specialized as used here with positive
denominator. -/
def av_rescale_near_inf (a b c : Int) : Int :=
  if 0 ≤ a * b then (a * b + c.tdiv 2).tdiv c
  else -((-(a * b) + c.tdiv 2).tdiv c)

/-- Function `pts_to_ms`: convert a stream timestamp to milliseconds via
`av_rescale_q(pts, time_base, AV_TIME_BASE_Q) / 1000`
(`AV_TIME_BASE_Q = 1/1000000`; the final `/ 1000` is C truncating
division), propagating the `AV_NOPTS_VALUE` sentinel. -/
def pts_to_ms (tb_num tb_den pts : Int) : Int :=
  if pts = AV_NOPTS_VALUE then AV_NOPTS_VALUE
  else (av_rescale_near_inf pts (tb_num * 1000000) tb_den).tdiv 1000

/-- Function `should_skip_video_frame`: the drift-policy skip test, returning the C
boolean together with the updated context (the only mutation is the
`frame_drop_count++` on the true branch). -/
def should_skip_video_frame (c : ffmpeg_context_s) : Bool × ffmpeg_context_s :=
  if c.sync_enabled = false || c.has_audio = false then (false, c)
  else if c.audio_pts = AV_NOPTS_VALUE || c.video_pts = AV_NOPTS_VALUE then
    (false, c)
  else if c.video_pts - c.audio_pts < -c.sync_threshold then
    (true, { c with frame_drop_count := c.frame_drop_count + 1 })
  else (false, c)

/-- Function `should_repeat_video_frame`: the symmetric drift-policy repeat test;
the only mutation is the `frame_repeat_count++` on the true branch. -/
def should_repeat_video_frame (c : ffmpeg_context_s) : Bool × ffmpeg_context_s :=
  if c.sync_enabled = false || c.has_audio = false then (false, c)
  else if c.audio_pts = AV_NOPTS_VALUE || c.video_pts = AV_NOPTS_VALUE then
    (false, c)
  else if c.sync_threshold < c.video_pts - c.audio_pts then
    (true, { c with frame_repeat_count := c.frame_repeat_count + 1 })
  else (false, c)

/-- A context in the normal synchronized-playback configuration (sync
enabled, audio stream present, default `max_frame_delay`), with the given
video pts, audio pts and sync threshold.  The time base `1/1000` makes
stream timestamps already be milliseconds. -/
def mkSyncCtx (v a t : Int) : ffmpeg_context_s :=
  { video_pts := v
    audio_pts := a
    video_clock := v
    audio_clock := a
    start_time := 0
    sync_threshold := t
    max_frame_delay := 100
    frame_drop_count := 0
    frame_repeat_count := 0
    sync_enabled := true
    has_audio := true
    audio_enabled := true
    is_playing := true
    is_paused := false
    consecutive_skips := 0
    skip_this_frame := false
    time_base_num := 1
    time_base_den := 1000
    audio_time_base_num := 1
    audio_time_base_den := 1000
    video_buffer := video_buffer_init }

theorem should_skip_iff (c : ffmpeg_context_s) :
    (should_skip_video_frame c).1 = true ↔
      (c.sync_enabled = true ∧ c.has_audio = true ∧
       c.audio_pts ≠ AV_NOPTS_VALUE ∧ c.video_pts ≠ AV_NOPTS_VALUE ∧
       c.video_pts - c.audio_pts < -c.sync_threshold) := by
  unfold should_skip_video_frame
  cases hs : c.sync_enabled <;> cases ha : c.has_audio <;>
    simp [hs, ha] <;> split_ifs with h2 h3 <;> simp_all <;> tauto

theorem should_repeat_iff (c : ffmpeg_context_s) :
    (should_repeat_video_frame c).1 = true ↔
      (c.sync_enabled = true ∧ c.has_audio = true ∧
       c.audio_pts ≠ AV_NOPTS_VALUE ∧ c.video_pts ≠ AV_NOPTS_VALUE ∧
       c.sync_threshold < c.video_pts - c.audio_pts) := by
  unfold should_repeat_video_frame
  cases hs : c.sync_enabled <;> cases ha : c.has_audio <;>
    simp [hs, ha] <;> split_ifs with h2 h3 <;> simp_all <;> tauto

theorem should_skip_drop_count (c : ffmpeg_context_s) :
    (should_skip_video_frame c).2.frame_drop_count =
      c.frame_drop_count + (if (should_skip_video_frame c).1 = true then 1 else 0) := by
  unfold should_skip_video_frame
  split_ifs <;> first | contradiction | simp_all | rfl

theorem should_repeat_repeat_count (c : ffmpeg_context_s) :
    (should_repeat_video_frame c).2.frame_repeat_count =
      c.frame_repeat_count + (if (should_repeat_video_frame c).1 = true then 1 else 0) := by
  unfold should_repeat_video_frame
  split_ifs <;> first | contradiction | simp_all | rfl

theorem should_skip_false_state (c : ffmpeg_context_s)
    (h : (should_skip_video_frame c).1 = false) :
    (should_skip_video_frame c).2 = c := by
  unfold should_skip_video_frame at h ⊢
  split_ifs at h ⊢ <;> simp_all

theorem should_repeat_false_state (c : ffmpeg_context_s)
    (h : (should_repeat_video_frame c).1 = false) :
    (should_repeat_video_frame c).2 = c := by
  unfold should_repeat_video_frame at h ⊢
  split_ifs at h ⊢ <;> simp_all

/-- Claim C1: `should_skip_video_frame` returns false if sync is disabled,
if there is no audio stream, or if either timestamp is unset; otherwise it
returns true iff `video_pts - audio_pts < -sync_threshold`, and it
increments `frame_drop_count` exactly when it returns true.  In particular
with `audio_pts = 200`, `video_pts = 150`, `sync_threshold = 30` it returns
true. -/
theorem skip_video_frame_spec :
    (∀ c : ffmpeg_context_s,
      ((should_skip_video_frame c).1 = true ↔
        (c.sync_enabled = true ∧ c.has_audio = true ∧
         c.audio_pts ≠ AV_NOPTS_VALUE ∧ c.video_pts ≠ AV_NOPTS_VALUE ∧
         c.video_pts - c.audio_pts < -c.sync_threshold)) ∧
      (should_skip_video_frame c).2.frame_drop_count =
        c.frame_drop_count + (if (should_skip_video_frame c).1 = true then 1 else 0)) ∧
    (should_skip_video_frame (mkSyncCtx 150 200 30)).1 = true :=
  ⟨fun c => ⟨should_skip_iff c, should_skip_drop_count c⟩, by decide⟩

/-- Claim C2: `should_repeat_video_frame` returns false if sync is
disabled, if there is no audio stream, or if either timestamp is unset;
otherwise it returns true iff `video_pts - audio_pts > sync_threshold`,
and it increments `frame_repeat_count` exactly when it returns true.  In
particular with `audio_pts = 200`, `sync_threshold = 30` it returns true
for `video_pts = 260` and false for `video_pts = 210`. -/
theorem repeat_video_frame_spec :
    (∀ c : ffmpeg_context_s,
      ((should_repeat_video_frame c).1 = true ↔
        (c.sync_enabled = true ∧ c.has_audio = true ∧
         c.audio_pts ≠ AV_NOPTS_VALUE ∧ c.video_pts ≠ AV_NOPTS_VALUE ∧
         c.sync_threshold < c.video_pts - c.audio_pts)) ∧
      (should_repeat_video_frame c).2.frame_repeat_count =
        c.frame_repeat_count + (if (should_repeat_video_frame c).1 = true then 1 else 0)) ∧
    (should_repeat_video_frame (mkSyncCtx 260 200 30)).1 = true ∧
    (should_repeat_video_frame (mkSyncCtx 210 200 30)).1 = false :=
  ⟨fun c => ⟨should_repeat_iff c, should_repeat_repeat_count c⟩, by decide, by decide⟩

/-- Claim C3: with a positive sync threshold, the skip and repeat tests are
never simultaneously true on the same clock state, and both are false
whenever either timestamp is unset. -/
theorem drift_policy_symmetry (c : ffmpeg_context_s)
    (ht : 0 < c.sync_threshold) :
    ¬((should_skip_video_frame c).1 = true ∧
      (should_repeat_video_frame c).1 = true) ∧
    ((c.audio_pts = AV_NOPTS_VALUE ∨ c.video_pts = AV_NOPTS_VALUE) →
      (should_skip_video_frame c).1 = false ∧
      (should_repeat_video_frame c).1 = false) := by
  constructor
  · rintro ⟨h1, h2⟩
    rw [should_skip_iff] at h1
    rw [should_repeat_iff] at h2
    omega
  · intro hnp
    constructor <;>
      · rw [← Bool.not_eq_true]
        simp only [should_skip_iff, should_repeat_iff]
        rintro ⟨-, -, hna, hnv, -⟩
        tauto

/-- Witness for C3 at the concrete aligned state of the end-to-end
scenario (`video_pts = 210`, `audio_pts = 200`, `sync_threshold = 30`). -/
theorem drift_policy_symmetry_witness :
    ¬((should_skip_video_frame (mkSyncCtx 210 200 30)).1 = true ∧
      (should_repeat_video_frame (mkSyncCtx 210 200 30)).1 = true) ∧
    (((mkSyncCtx 210 200 30).audio_pts = AV_NOPTS_VALUE ∨
      (mkSyncCtx 210 200 30).video_pts = AV_NOPTS_VALUE) →
      (should_skip_video_frame (mkSyncCtx 210 200 30)).1 = false ∧
      (should_repeat_video_frame (mkSyncCtx 210 200 30)).1 = false) :=
  drift_policy_symmetry (mkSyncCtx 210 200 30) (by decide)

theorem wf_iff (b : video_buffer_t) :
    video_buffer_wf b = true ↔
      (b.initialized = true ∧ b.frames.length = VIDEO_BUFFER_SIZE ∧
       b.count ≤ VIDEO_BUFFER_SIZE ∧ b.read_idx < VIDEO_BUFFER_SIZE ∧
       b.write_idx = (b.read_idx + b.count) % VIDEO_BUFFER_SIZE) := by
  simp [video_buffer_wf, and_assoc]

theorem bufList_length (b : video_buffer_t) : (bufList b).length = b.count := by
  simp [bufList]

theorem video_buffer_init_wf : video_buffer_wf video_buffer_init = true := by
  decide

theorem bufList_init : bufList video_buffer_init = [] := by
  decide

theorem video_buffer_push_not_full (b : video_buffer_t) (f : AVFrame)
    (hwf : video_buffer_wf b = true) (hc : b.count < VIDEO_BUFFER_SIZE) :
    (video_buffer_push b (some f) true).1 = 0 ∧
    video_buffer_wf (video_buffer_push b (some f) true).2 = true ∧
    (video_buffer_push b (some f) true).2.count = b.count + 1 ∧
    (video_buffer_push b (some f) true).2.read_idx = b.read_idx ∧
    bufList (video_buffer_push b (some f) true).2 = bufList b ++ [some f] := by
  rw [wf_iff] at hwf
  obtain ⟨hinit, hlen, hcle, hr, hw⟩ := hwf
  have hnotfull : ¬ VIDEO_BUFFER_SIZE ≤ b.count := by omega
  have hres : video_buffer_push b (some f) true =
      (0, { b with frames := b.frames.set b.write_idx (some f)
                   write_idx := (b.write_idx + 1) % VIDEO_BUFFER_SIZE
                   count := b.count + 1 }) := by
    unfold video_buffer_push
    simp [hnotfull, hinit]
  rw [hres]
  refine ⟨rfl, ?_, rfl, rfl, ?_⟩
  · rw [wf_iff]
    refine ⟨hinit, by simpa using hlen, by simpa using hc, hr, ?_⟩
    simp only [hw]
    unfold VIDEO_BUFFER_SIZE
    omega
  · unfold bufList
    simp only [List.range_succ, List.map_append, List.map_cons, List.map_nil]
    congr 1
    · apply List.map_congr_left
      intro i hi
      rw [List.mem_range] at hi
      simp only [List.getD_eq_getElem?_getD]
      rw [List.getElem?_set_ne]
      rw [hw]
      unfold VIDEO_BUFFER_SIZE at *
      omega
    · simp only [List.getD_eq_getElem?_getD, hw]
      rw [← hw, List.getElem?_set_self]
      · simp
      · rw [hlen, hw]
        unfold VIDEO_BUFFER_SIZE
        omega

theorem video_buffer_push_full_eq (b : video_buffer_t) (f : AVFrame)
    (hinit : b.initialized = true) (hc : b.count = VIDEO_BUFFER_SIZE) :
    video_buffer_push b (some f) true =
      (0, { b with
            frames := (b.frames.set b.read_idx none).set b.write_idx (some f)
            write_idx := (b.write_idx + 1) % VIDEO_BUFFER_SIZE
            read_idx := (b.read_idx + 1) % VIDEO_BUFFER_SIZE
            count := VIDEO_BUFFER_SIZE }) := by
  unfold video_buffer_push
  simp [hinit, hc, VIDEO_BUFFER_SIZE]

theorem video_buffer_push_full (b : video_buffer_t) (f : AVFrame)
    (hwf : video_buffer_wf b = true) (hc : b.count = VIDEO_BUFFER_SIZE) :
    (video_buffer_push b (some f) true).1 = 0 ∧
    video_buffer_wf (video_buffer_push b (some f) true).2 = true ∧
    (video_buffer_push b (some f) true).2.count = VIDEO_BUFFER_SIZE ∧
    bufList (video_buffer_push b (some f) true).2 =
      (bufList b).drop 1 ++ [some f] ∧
    (∀ j : Nat, j ≠ b.read_idx →
      (video_buffer_push b (some f) true).2.frames.getD j none =
        b.frames.getD j none) ∧
    (video_buffer_push b (some f) true).2.frames.getD b.read_idx none = some f := by
  rw [wf_iff] at hwf
  obtain ⟨hinit, hlen, hcle, hr, hw⟩ := hwf
  have hwr : b.write_idx = b.read_idx := by
    rw [hw, hc]
    unfold VIDEO_BUFFER_SIZE at *
    omega
  rw [video_buffer_push_full_eq b f hinit hc]
  have hsets : (b.frames.set b.read_idx none).set b.write_idx (some f) =
      b.frames.set b.read_idx (some f) := by
    rw [hwr, List.set_set]
  refine ⟨rfl, ?_, rfl, ?_, ?_, ?_⟩
  · rw [wf_iff]
    refine ⟨hinit, by simpa using hlen, by simp, ?_, ?_⟩
    · simp only []
      unfold VIDEO_BUFFER_SIZE
      omega
    · simp only [hwr]
      unfold VIDEO_BUFFER_SIZE
      omega
  · have hc5 : b.count = 5 := hc
    have hr5 : b.read_idx < 5 := hr
    have hlen5 : b.frames.length = 5 := hlen
    unfold bufList VIDEO_BUFFER_SIZE
    simp only [hsets, hc5]
    have hdrop : List.drop 1 ((List.range 5).map
        (fun i => b.frames.getD ((b.read_idx + i) % 5) none)) =
        (List.range 4).map
          (fun i => b.frames.getD ((b.read_idx + (i + 1)) % 5) none) := by
      simp [List.range_succ_eq_map, List.drop_one, Function.comp]
    rw [hdrop]
    have hsplit : List.range 5 = List.range 4 ++ [4] := by decide
    rw [hsplit, List.map_append]
    congr 1
    · apply List.map_congr_left
      intro i hi
      rw [List.mem_range] at hi
      have hidx2 : ((b.read_idx + 1) % 5 + i) % 5 = (b.read_idx + (i + 1)) % 5 := by
        omega
      simp only [List.getD_eq_getElem?_getD, hidx2]
      rw [List.getElem?_set_ne]
      omega
    · have hidx : ((b.read_idx + 1) % 5 + 4) % 5 = b.read_idx := by omega
      simp only [List.map_cons, List.map_nil, List.getD_eq_getElem?_getD, hidx]
      rw [List.getElem?_set_self]
      · simp
      · rw [hlen5]
        exact hr5
  · intro j hj
    simp only [hsets, List.getD_eq_getElem?_getD]
    rw [List.getElem?_set_ne (fun h => hj h.symm)]
  · simp only [hsets, List.getD_eq_getElem?_getD]
    rw [List.getElem?_set_self]
    · simp
    · rw [hlen]
      exact hr

theorem video_buffer_pop_eq (b : video_buffer_t)
    (hinit : b.initialized = true) (hc : b.count ≠ 0) :
    video_buffer_pop b =
      (b.frames.getD b.read_idx none,
       { b with frames := b.frames.set b.read_idx none
                read_idx := (b.read_idx + 1) % VIDEO_BUFFER_SIZE
                count := b.count - 1 }) := by
  unfold video_buffer_pop
  simp [hinit, hc]

theorem video_buffer_pop_pos (b : video_buffer_t)
    (hwf : video_buffer_wf b = true) (hc : 0 < b.count) :
    (video_buffer_pop b).1 = (bufList b).getD 0 none ∧
    video_buffer_wf (video_buffer_pop b).2 = true ∧
    (video_buffer_pop b).2.count = b.count - 1 ∧
    (video_buffer_pop b).2.read_idx = (b.read_idx + 1) % VIDEO_BUFFER_SIZE ∧
    bufList (video_buffer_pop b).2 = (bufList b).drop 1 := by
  rw [wf_iff] at hwf
  obtain ⟨hinit, hlen, hcle, hr, hw⟩ := hwf
  rw [video_buffer_pop_eq b hinit (by omega)]
  have hr5 : b.read_idx % VIDEO_BUFFER_SIZE = b.read_idx := by
    unfold VIDEO_BUFFER_SIZE at *
    omega
  refine ⟨?_, ?_, rfl, rfl, ?_⟩
  · unfold bufList
    obtain ⟨n, hn⟩ : ∃ n, b.count = n + 1 := ⟨b.count - 1, by omega⟩
    rw [hn, List.range_succ_eq_map]
    simp [hr5]
  · rw [wf_iff]
    refine ⟨hinit, by simpa using hlen, by simp; omega, ?_, ?_⟩
    · simp only []
      unfold VIDEO_BUFFER_SIZE
      omega
    · simp only [hw]
      unfold VIDEO_BUFFER_SIZE at *
      omega
  · unfold bufList
    obtain ⟨n, hn⟩ : ∃ n, b.count = n + 1 := ⟨b.count - 1, by omega⟩
    rw [hn]
    simp only [Nat.add_sub_cancel]
    rw [List.range_succ_eq_map]
    simp only [List.map_cons, List.drop_one, List.map_map, List.tail_cons]
    apply List.map_congr_left
    intro i hi
    rw [List.mem_range] at hi
    simp only [Function.comp, List.getD_eq_getElem?_getD]
    rw [List.getElem?_set_ne]
    · have hidx : ((b.read_idx + 1) % VIDEO_BUFFER_SIZE + i) % VIDEO_BUFFER_SIZE =
          (b.read_idx + (i + 1)) % VIDEO_BUFFER_SIZE := by
        unfold VIDEO_BUFFER_SIZE
        omega
      rw [hidx]
    · unfold VIDEO_BUFFER_SIZE at *
      omega

theorem video_buffer_push_wf_min (b : video_buffer_t) (f : AVFrame)
    (hwf : video_buffer_wf b = true) :
    video_buffer_wf (video_buffer_push b (some f) true).2 = true ∧
    (video_buffer_push b (some f) true).2.count =
      min (b.count + 1) VIDEO_BUFFER_SIZE := by
  have hcle : b.count ≤ VIDEO_BUFFER_SIZE := ((wf_iff b).mp hwf).2.2.1
  rcases Nat.lt_or_ge b.count VIDEO_BUFFER_SIZE with hlt | hge
  · obtain ⟨-, hwf', hcnt, -, -⟩ := video_buffer_push_not_full b f hwf hlt
    refine ⟨hwf', ?_⟩
    rw [hcnt]
    omega
  · have hc : b.count = VIDEO_BUFFER_SIZE := by omega
    obtain ⟨-, hwf', hcnt, -, -, -⟩ := video_buffer_push_full b f hwf hc
    refine ⟨hwf', ?_⟩
    rw [hcnt]
    omega

theorem pushSeq_cons (b : video_buffer_t) (f : AVFrame) (t : List AVFrame) :
    pushSeq b (f :: t) = pushSeq (video_buffer_push b (some f) true).2 t := by
  simp [pushSeq]

theorem pushSeq_wf (l : List AVFrame) :
    ∀ b : video_buffer_t, video_buffer_wf b = true →
      video_buffer_wf (pushSeq b l) = true := by
  induction l with
  | nil => intro b hb; simpa [pushSeq] using hb
  | cons f t ih =>
    intro b hb
    rw [pushSeq_cons]
    exact ih _ (video_buffer_push_wf_min b f hb).1

/-- Claim C4: for every sequence of pushes (from a freshly initialized
queue) `count` never exceeds the capacity `VIDEO_BUFFER_SIZE = 5`, and
after any single push on a well-formed queue the new `count` equals
`min (previous_count + 1) capacity`. -/
theorem queue_bound_spec :
    (∀ l : List AVFrame,
      (pushSeq video_buffer_init l).count ≤ VIDEO_BUFFER_SIZE) ∧
    (∀ (b : video_buffer_t) (f : AVFrame), video_buffer_wf b = true →
      (video_buffer_push b (some f) true).2.count =
        min (b.count + 1) VIDEO_BUFFER_SIZE) := by
  constructor
  · intro l
    have h := pushSeq_wf l video_buffer_init video_buffer_init_wf
    exact ((wf_iff _).mp h).2.2.1
  · intro b f hb
    exact (video_buffer_push_wf_min b f hb).2

/-- A typical valid decoded frame, used to instantiate witnesses. -/
def frame0 : AVFrame := { width := 320, height := 240, format := 0, pts := 0 }

/-- Witness for C4: a concrete push on the freshly initialized queue takes
`count` from 0 to `min (0 + 1) 5 = 1`. -/
theorem queue_bound_spec_witness :
    (video_buffer_push video_buffer_init (some frame0) true).2.count =
      min (video_buffer_init.count + 1) VIDEO_BUFFER_SIZE :=
  queue_bound_spec.2 video_buffer_init frame0 (by decide)

theorem pushSeq_bufList (l : List AVFrame) :
    ∀ b : video_buffer_t, video_buffer_wf b = true →
      b.count + l.length ≤ VIDEO_BUFFER_SIZE →
      video_buffer_wf (pushSeq b l) = true ∧
      (pushSeq b l).count = b.count + l.length ∧
      bufList (pushSeq b l) = bufList b ++ l.map some := by
  induction l with
  | nil =>
    intro b hb _
    simpa [pushSeq] using hb
  | cons f t ih =>
    intro b hb hle
    have hlt : b.count < VIDEO_BUFFER_SIZE := by
      simp only [List.length_cons] at hle
      omega
    obtain ⟨-, hwf', hcnt, -, hbl⟩ := video_buffer_push_not_full b f hb hlt
    rw [pushSeq_cons]
    obtain ⟨hw2, hc2, hb2⟩ := ih _ hwf' (by rw [hcnt]; simp at hle ⊢; omega)
    refine ⟨hw2, ?_, ?_⟩
    · rw [hc2, hcnt]
      simp
      omega
    · rw [hb2, hbl]
      simp

theorem popSeq_bufList (n : Nat) :
    ∀ b : video_buffer_t, video_buffer_wf b = true → n ≤ b.count →
      (popSeq b n).1 = (bufList b).take n ∧
      video_buffer_wf (popSeq b n).2 = true ∧
      (popSeq b n).2.count = b.count - n := by
  induction n with
  | zero =>
    intro b hb _
    simpa [popSeq] using hb
  | succ n ih =>
    intro b hb hn
    have hpos : 0 < b.count := by omega
    obtain ⟨h1, hwf', hcnt, -, hbl⟩ := video_buffer_pop_pos b hb hpos
    have hlen : (bufList b).length = b.count := bufList_length b
    obtain ⟨x, xs, hx⟩ : ∃ x xs, bufList b = x :: xs := by
      cases hbl' : bufList b with
      | nil =>
        rw [hbl'] at hlen
        simp at hlen
        omega
      | cons x xs => exact ⟨x, xs, rfl⟩
    obtain ⟨ih1, ih2, ih3⟩ := ih (video_buffer_pop b).2 hwf' (by omega)
    refine ⟨?_, ?_, ?_⟩
    · show (video_buffer_pop b).1 :: (popSeq (video_buffer_pop b).2 n).1 =
        (bufList b).take (n + 1)
      rw [ih1, hbl, h1, hx]
      simp
    · exact ih2
    · show (popSeq (video_buffer_pop b).2 n).2.count = b.count - (n + 1)
      rw [ih3, hcnt]
      omega

/-- Claim C5: pushing `n ≤ capacity` frames with strictly increasing
timestamps into the freshly initialized queue and then popping `n` times
returns exactly those frames, in push order (FIFO, no reordering). -/
theorem fifo_order_spec (l : List AVFrame)
    (hsorted : l.Pairwise (fun a b => a.pts < b.pts))
    (hlen : l.length ≤ VIDEO_BUFFER_SIZE) :
    (popSeq (pushSeq video_buffer_init l) l.length).1 = l.map some := by
  obtain ⟨hwf, hcnt, hbl⟩ :=
    pushSeq_bufList l video_buffer_init video_buffer_init_wf
      (by simpa [video_buffer_init] using hlen)
  obtain ⟨h1, -, -⟩ := popSeq_bufList l.length _ hwf (by omega)
  rw [h1, hbl, bufList_init]
  simp

/-- Witness for C5: three frames at pts 0 < 33 < 66 come back in order. -/
theorem fifo_order_spec_witness :
    (popSeq
      (pushSeq video_buffer_init
        [{ width := 320, height := 240, format := 0, pts := 0 },
         { width := 320, height := 240, format := 0, pts := 33 },
         { width := 320, height := 240, format := 0, pts := 66 }])
      ([{ width := 320, height := 240, format := 0, pts := 0 },
        { width := 320, height := 240, format := 0, pts := 33 },
        { width := 320, height := 240, format := 0, pts := (66 : Int) }] : List AVFrame).length).1 =
      [{ width := 320, height := 240, format := 0, pts := 0 },
       { width := 320, height := 240, format := 0, pts := 33 },
       { width := 320, height := 240, format := 0, pts := (66 : Int) }].map some :=
  fifo_order_spec _ (by decide) (by decide)

/-- A valid decoded frame carrying the given presentation timestamp. -/
def pframe (p : Int) : AVFrame :=
  { width := 320, height := 240, format := 0, pts := p }

/-- The call `video_buffer_push(&ffmpeg_ctx->video_buffer, frame)` seen at
context level: the C function receives only the address of the embedded
ring buffer, so the clock and counter fields of the context are out of its
reach. -/
def ctx_video_buffer_push (c : ffmpeg_context_s) (frame : Option AVFrame)
    (clone_ok : Bool) : Int × ffmpeg_context_s :=
  let r := video_buffer_push c.video_buffer frame clone_ok
  (r.1, { c with video_buffer := r.2 })

/-- Claim C6: a push into a full queue evicts exactly the slot at the read
cursor (the oldest remaining frame) and no other slot; the concrete
six-push run at pts `[0,33,66,100,133,166]` against capacity 5 ends with
exactly `[33,66,100,133,166]` queued in order; and no push ever changes
`frame_drop_count` (eviction is not a drift drop). -/
theorem overflow_eviction_spec :
    (∀ (b : video_buffer_t) (f : AVFrame), video_buffer_wf b = true →
        b.count = VIDEO_BUFFER_SIZE →
      bufList (video_buffer_push b (some f) true).2 =
        (bufList b).drop 1 ++ [some f] ∧
      (∀ j : Nat, j ≠ b.read_idx →
        (video_buffer_push b (some f) true).2.frames.getD j none =
          b.frames.getD j none) ∧
      (video_buffer_push b (some f) true).2.frames.getD b.read_idx none =
        some f) ∧
    bufList (pushSeq video_buffer_init
        (([0, 33, 66, 100, 133, 166] : List Int).map pframe)) =
      ([33, 66, 100, 133, 166] : List Int).map (fun p => some (pframe p)) ∧
    (∀ (c : ffmpeg_context_s) (frame : Option AVFrame) (ok : Bool),
      (ctx_video_buffer_push c frame ok).2.frame_drop_count =
        c.frame_drop_count) := by
  refine ⟨?_, by decide, fun c frame ok => rfl⟩
  intro b f hwf hc
  obtain ⟨-, -, -, h4, h5, h6⟩ := video_buffer_push_full b f hwf hc
  exact ⟨h4, h5, h6⟩

/-- Witness for C6 at the concrete full queue reached after pushing the
five frames at pts `[0,33,66,100,133]`. -/
theorem overflow_eviction_spec_witness :
    bufList (video_buffer_push
        (pushSeq video_buffer_init (([0, 33, 66, 100, 133] : List Int).map pframe))
        (some (pframe 166)) true).2 =
      (bufList (pushSeq video_buffer_init
        (([0, 33, 66, 100, 133] : List Int).map pframe))).drop 1 ++
        [some (pframe 166)] ∧
    (∀ j : Nat,
      j ≠ (pushSeq video_buffer_init
        (([0, 33, 66, 100, 133] : List Int).map pframe)).read_idx →
      (video_buffer_push
        (pushSeq video_buffer_init (([0, 33, 66, 100, 133] : List Int).map pframe))
        (some (pframe 166)) true).2.frames.getD j none =
      (pushSeq video_buffer_init
        (([0, 33, 66, 100, 133] : List Int).map pframe)).frames.getD j none) ∧
    (video_buffer_push
        (pushSeq video_buffer_init (([0, 33, 66, 100, 133] : List Int).map pframe))
        (some (pframe 166)) true).2.frames.getD
      (pushSeq video_buffer_init
        (([0, 33, 66, 100, 133] : List Int).map pframe)).read_idx none =
      some (pframe 166) :=
  overflow_eviction_spec.1
    (pushSeq video_buffer_init (([0, 33, 66, 100, 133] : List Int).map pframe))
    (pframe 166) (by decide) (by decide)

/-- Claim C7: pop is non-blocking.  On an initialized queue with
`count = 0` it returns `NULL` at once and leaves the queue unchanged;
otherwise it returns the frame at the read cursor, clears that slot,
advances the read cursor modulo the capacity and decrements `count`; at
the FIFO-abstraction level a nonempty pop returns the oldest queued frame
and leaves the rest of the sequence. -/
theorem pop_nonblocking_spec (b : video_buffer_t)
    (hinit : b.initialized = true) :
    (b.count = 0 → video_buffer_pop b = (none, b)) ∧
    (b.count ≠ 0 →
      video_buffer_pop b =
        (b.frames.getD b.read_idx none,
         { b with frames := b.frames.set b.read_idx none
                  read_idx := (b.read_idx + 1) % VIDEO_BUFFER_SIZE
                  count := b.count - 1 })) ∧
    (video_buffer_wf b = true → 0 < b.count →
      (video_buffer_pop b).1 = (bufList b).getD 0 none ∧
      bufList (video_buffer_pop b).2 = (bufList b).drop 1 ∧
      (video_buffer_pop b).2.count = b.count - 1) := by
  refine ⟨?_, video_buffer_pop_eq b hinit, ?_⟩
  · intro h0
    unfold video_buffer_pop
    simp [hinit, h0]
  · intro hwf hpos
    obtain ⟨h1, -, h3, -, h5⟩ := video_buffer_pop_pos b hwf hpos
    exact ⟨h1, h5, h3⟩

/-- Witness for C7 at the queue holding the single frame `pframe 33`. -/
theorem pop_nonblocking_spec_witness :
    ((pushSeq video_buffer_init [pframe 33]).count = 0 →
      video_buffer_pop (pushSeq video_buffer_init [pframe 33]) =
        (none, pushSeq video_buffer_init [pframe 33])) ∧
    ((pushSeq video_buffer_init [pframe 33]).count ≠ 0 →
      video_buffer_pop (pushSeq video_buffer_init [pframe 33]) =
        ((pushSeq video_buffer_init [pframe 33]).frames.getD
          (pushSeq video_buffer_init [pframe 33]).read_idx none,
         { pushSeq video_buffer_init [pframe 33] with
           frames := (pushSeq video_buffer_init [pframe 33]).frames.set
             (pushSeq video_buffer_init [pframe 33]).read_idx none
           read_idx := ((pushSeq video_buffer_init [pframe 33]).read_idx + 1) %
             VIDEO_BUFFER_SIZE
           count := (pushSeq video_buffer_init [pframe 33]).count - 1 })) ∧
    (video_buffer_wf (pushSeq video_buffer_init [pframe 33]) = true →
      0 < (pushSeq video_buffer_init [pframe 33]).count →
      (video_buffer_pop (pushSeq video_buffer_init [pframe 33])).1 =
        (bufList (pushSeq video_buffer_init [pframe 33])).getD 0 none ∧
      bufList (video_buffer_pop (pushSeq video_buffer_init [pframe 33])).2 =
        (bufList (pushSeq video_buffer_init [pframe 33])).drop 1 ∧
      (video_buffer_pop (pushSeq video_buffer_init [pframe 33])).2.count =
        (pushSeq video_buffer_init [pframe 33]).count - 1) :=
  pop_nonblocking_spec (pushSeq video_buffer_init [pframe 33]) (by decide)

theorem video_buffer_push_fail_not_full_eq (b : video_buffer_t) (f : AVFrame)
    (hinit : b.initialized = true) (hc : b.count < VIDEO_BUFFER_SIZE) :
    video_buffer_push b (some f) false =
      (-1, { b with frames := b.frames.set b.write_idx none }) := by
  have hnotfull : ¬ VIDEO_BUFFER_SIZE ≤ b.count := by omega
  unfold video_buffer_push
  simp [hinit, hnotfull]

theorem video_buffer_push_fail_full_eq (b : video_buffer_t) (f : AVFrame)
    (hinit : b.initialized = true) (hc : b.count = VIDEO_BUFFER_SIZE) :
    video_buffer_push b (some f) false =
      (-1, { b with
             frames := (b.frames.set b.read_idx none).set b.write_idx none
             read_idx := (b.read_idx + 1) % VIDEO_BUFFER_SIZE
             count := b.count - 1 }) := by
  unfold video_buffer_push
  simp [hinit, hc]

/-- Claim C10: push is not atomic on error.  The pushed frame is stored as
an independent clone (a failing clone is possible precisely because the
frame is cloned, not moved, into the queue); when the clone fails push
returns -1 without advancing the write cursor or incrementing `count` —
but if the queue was full at entry the oldest frame has already been
evicted and `count` decremented first, so a failed push on a full queue
ends with `count = capacity - 1` and the evicted frame lost. -/
theorem push_clone_failure_spec (b : video_buffer_t) (f : AVFrame)
    (hwf : video_buffer_wf b = true) :
    (video_buffer_push b (some f) false).1 = -1 ∧
    (video_buffer_push b (some f) false).2.write_idx = b.write_idx ∧
    (b.count < VIDEO_BUFFER_SIZE →
      (video_buffer_push b (some f) false).2.count = b.count ∧
      (video_buffer_push b (some f) false).2.read_idx = b.read_idx) ∧
    (b.count = VIDEO_BUFFER_SIZE →
      (video_buffer_push b (some f) false).2.count = VIDEO_BUFFER_SIZE - 1 ∧
      (video_buffer_push b (some f) false).2.read_idx =
        (b.read_idx + 1) % VIDEO_BUFFER_SIZE ∧
      bufList (video_buffer_push b (some f) false).2 = (bufList b).drop 1) := by
  obtain ⟨hinit, hlen, hcle, hr, hw⟩ := (wf_iff b).mp hwf
  rcases Nat.lt_or_ge b.count VIDEO_BUFFER_SIZE with hlt | hge
  · rw [video_buffer_push_fail_not_full_eq b f hinit hlt]
    exact ⟨rfl, rfl, fun _ => ⟨rfl, rfl⟩, fun hc => absurd hc (by omega)⟩
  · have hc : b.count = VIDEO_BUFFER_SIZE := by omega
    rw [video_buffer_push_fail_full_eq b f hinit hc]
    refine ⟨rfl, rfl, fun h => absurd h (by omega), fun _ => ⟨by simp [hc], rfl, ?_⟩⟩
    have hwr : b.write_idx = b.read_idx := by
      rw [hw, hc]
      unfold VIDEO_BUFFER_SIZE at *
      omega
    have hsets : (b.frames.set b.read_idx none).set b.write_idx none =
        b.frames.set b.read_idx none := by
      rw [hwr, List.set_set]
    have hc5 : b.count = 5 := hc
    have hr5 : b.read_idx < 5 := hr
    unfold bufList VIDEO_BUFFER_SIZE
    simp only [hsets, hc5]
    have hdrop : List.drop 1 ((List.range 5).map
        (fun i => b.frames.getD ((b.read_idx + i) % 5) none)) =
        (List.range 4).map
          (fun i => b.frames.getD ((b.read_idx + (i + 1)) % 5) none) := by
      simp [List.range_succ_eq_map, List.drop_one, Function.comp]
    rw [hdrop]
    show (List.range (5 - 1)).map _ = _
    apply List.map_congr_left
    intro i hi
    rw [List.mem_range] at hi
    have hidx2 : ((b.read_idx + 1) % 5 + i) % 5 = (b.read_idx + (i + 1)) % 5 := by
      omega
    simp only [List.getD_eq_getElem?_getD, hidx2]
    rw [List.getElem?_set_ne]
    omega

/-- Witness for C10 at the full queue holding pts `[0,33,66,100,133]` and
a failing clone of the frame at pts 166. -/
theorem push_clone_failure_spec_witness :
    (video_buffer_push
        (pushSeq video_buffer_init (([0, 33, 66, 100, 133] : List Int).map pframe))
        (some (pframe 166)) false).1 = -1 ∧
    (video_buffer_push
        (pushSeq video_buffer_init (([0, 33, 66, 100, 133] : List Int).map pframe))
        (some (pframe 166)) false).2.write_idx =
      (pushSeq video_buffer_init
        (([0, 33, 66, 100, 133] : List Int).map pframe)).write_idx ∧
    ((pushSeq video_buffer_init
        (([0, 33, 66, 100, 133] : List Int).map pframe)).count < VIDEO_BUFFER_SIZE →
      (video_buffer_push
        (pushSeq video_buffer_init (([0, 33, 66, 100, 133] : List Int).map pframe))
        (some (pframe 166)) false).2.count =
        (pushSeq video_buffer_init
          (([0, 33, 66, 100, 133] : List Int).map pframe)).count ∧
      (video_buffer_push
        (pushSeq video_buffer_init (([0, 33, 66, 100, 133] : List Int).map pframe))
        (some (pframe 166)) false).2.read_idx =
        (pushSeq video_buffer_init
          (([0, 33, 66, 100, 133] : List Int).map pframe)).read_idx) ∧
    ((pushSeq video_buffer_init
        (([0, 33, 66, 100, 133] : List Int).map pframe)).count = VIDEO_BUFFER_SIZE →
      (video_buffer_push
        (pushSeq video_buffer_init (([0, 33, 66, 100, 133] : List Int).map pframe))
        (some (pframe 166)) false).2.count = VIDEO_BUFFER_SIZE - 1 ∧
      (video_buffer_push
        (pushSeq video_buffer_init (([0, 33, 66, 100, 133] : List Int).map pframe))
        (some (pframe 166)) false).2.read_idx =
        ((pushSeq video_buffer_init
          (([0, 33, 66, 100, 133] : List Int).map pframe)).read_idx + 1) %
          VIDEO_BUFFER_SIZE ∧
      bufList (video_buffer_push
        (pushSeq video_buffer_init (([0, 33, 66, 100, 133] : List Int).map pframe))
        (some (pframe 166)) false).2 =
        (bufList (pushSeq video_buffer_init
          (([0, 33, 66, 100, 133] : List Int).map pframe))).drop 1) :=
  push_clone_failure_spec
    (pushSeq video_buffer_init (([0, 33, 66, 100, 133] : List Int).map pframe))
    (pframe 166) (by decide)

/-- The video-clock update performed by `ffmpeg_playback_thread` for a
received frame (`if(video_stream && frame->pts != AV_NOPTS_VALUE) ...`):
when the pts converts to a valid millisecond value, `video_pts` and
`video_clock` are stored and `start_time` is set on the first timestamped
frame (`now` is what `get_current_time_ms()` returns). -/
def playback_update_video_clock (c : ffmpeg_context_s) (pts now : Int) :
    ffmpeg_context_s :=
  if pts = AV_NOPTS_VALUE then c
  else
    let ms := pts_to_ms c.time_base_num c.time_base_den pts
    if ms = AV_NOPTS_VALUE then c
    else
      { c with video_pts := ms
               video_clock := ms
               start_time := if c.start_time = 0 then now else c.start_time }

/-- Handling of one decoded video frame in the receive loop of
`ffmpeg_playback_thread`: frames with zero dimensions or an undefined
format (decoder flush artifacts) are dropped silently; otherwise the video
clock is updated from the frame pts, the frame is converted for display by
the external `ffmpeg_output_video_frame`, and the frame is pushed into the
ring buffer (`clone_ok` = outcome of the `av_frame_clone` inside the
push).  The drift policy is not consulted. -/
def playback_handle_frame (c : ffmpeg_context_s) (fr : AVFrame)
    (clone_ok : Bool) (now : Int) : ffmpeg_context_s :=
  if fr.width = 0 ∨ fr.height = 0 ∨ fr.format = AV_PIX_FMT_NONE then c
  else
    (ctx_video_buffer_push (playback_update_video_clock c fr.pts now)
      (some fr) clone_ok).2

/-- Video-packet handling of one `ffmpeg_playback_thread` iteration:
the packet goes to `avcodec_send_packet` (`send_ok` its outcome; on
failure the packet is dropped) and each successfully received decoded
frame is handled in order. -/
def playback_video_packet_step (c : ffmpeg_context_s) (send_ok : Bool)
    (frames : List (AVFrame × Bool)) (now : Int) : ffmpeg_context_s :=
  if send_ok = false then c
  else frames.foldl (fun s fb => playback_handle_frame s fb.1 fb.2 now) c

/-- The audio-clock update of `ffmpeg_playback_thread` for one received
audio frame (symmetric to the video one, using the audio stream's time
base). -/
def playback_update_audio_clock (c : ffmpeg_context_s) (pts now : Int) :
    ffmpeg_context_s :=
  if pts = AV_NOPTS_VALUE then c
  else
    let ms := pts_to_ms c.audio_time_base_num c.audio_time_base_den pts
    if ms = AV_NOPTS_VALUE then c
    else
      { c with audio_pts := ms
               audio_clock := ms
               start_time := if c.start_time = 0 then now else c.start_time }

/-- One `av_read_frame` outcome for a `ffmpeg_playback_thread` loop
iteration, together with what the external decoder produced for it.  Each
video frame carries the outcome of its `av_frame_clone`. -/
inductive loop_input where
  | eof : loop_input
  | read_error : loop_input
  | video_packet (send_ok : Bool) (frames : List (AVFrame × Bool))
      (now : Int) : loop_input
  | audio_packet (send_ok : Bool) (pts_list : List Int) (now : Int) : loop_input
  | other_packet : loop_input

/-- One iteration of the `while(ffmpeg_ctx->is_playing)` loop of
`ffmpeg_playback_thread`.  Returns the new context, whether the loop
continues, and the `usleep` duration of the iteration in milliseconds
(10 ms when paused or after a transient read error, as in the C code). -/
def playback_thread_iter (c : ffmpeg_context_s) (inp : loop_input) :
    ffmpeg_context_s × Bool × Nat :=
  if c.is_playing = false then (c, false, 0)
  else if c.is_paused = true then (c, true, 10)
  else
    match inp with
    | .eof => (c, false, 0)
    | .read_error => (c, true, 10)
    | .video_packet send_ok frames now =>
      (playback_video_packet_step c send_ok frames now, true, 0)
    | .audio_packet send_ok pts_list now =>
      if c.audio_enabled = false then (c, true, 0)
      else if send_ok = false then (c, true, 0)
      else (pts_list.foldl (fun s p => playback_update_audio_clock s p now) c,
            true, 0)
    | .other_packet => (c, true, 0)

/-- Video-packet handling of the pull-based decode loop
`ffmpeg_update_next_frame`: `should_skip_video_frame` runs at packet read
time; on true the video clock is advanced from the packet timestamp (when
it converts to a valid millisecond value) and the packet is discarded
without decoding (second component `false`); on false the packet is
decoded via the external `ffmpeg_decode_packet` (second component
`true`). -/
def ffmpeg_update_next_frame_video_step (c : ffmpeg_context_s)
    (pkt_pts : Int) : ffmpeg_context_s × Bool :=
  let r := should_skip_video_frame c
  if r.1 then
    (if pkt_pts = AV_NOPTS_VALUE then r.2
     else
       let ms := pts_to_ms r.2.time_base_num r.2.time_base_den pkt_pts
       if ms = AV_NOPTS_VALUE then r.2
       else { r.2 with video_pts := ms, video_clock := ms },
     false)
  else (r.2, true)

/-- The `LV_FFMPEG_PLAYER_CMD_STOP` branch of `lv_ffmpeg_player_set_cmd`:
the seek and LVGL-timer calls are external; if the playback thread is
running, `is_playing` is cleared and the thread joined before the call
returns; then the synchronization state is reset. -/
def lv_ffmpeg_player_cmd_stop (c : ffmpeg_context_s) : ffmpeg_context_s :=
  let c1 := if c.is_playing = true then { c with is_playing := false } else c
  { c1 with video_clock := 0
            audio_clock := 0
            video_pts := AV_NOPTS_VALUE
            audio_pts := AV_NOPTS_VALUE
            start_time := 0
            frame_drop_count := 0
            frame_repeat_count := 0 }

/-- The teardown steps of `ffmpeg_close` in program order. -/
inductive close_action where
  | stop_and_join : close_action
  | destroy_video_buffer : close_action
  | free_codecs_and_buffers : close_action
  deriving DecidableEq, Repr

/-- Function `ffmpeg_close` in program order: stop-and-join the playback thread
(when running), then destroy the video ring buffer (when initialized),
then free the codec contexts, buffers and the context itself. -/
def ffmpeg_close_actions (c : ffmpeg_context_s) : List close_action :=
  (if c.is_playing = true then [close_action.stop_and_join] else []) ++
    (if c.video_buffer.initialized = true
      then [close_action.destroy_video_buffer] else []) ++
    [close_action.free_codecs_and_buffers]

theorem playback_update_video_clock_preserves (c : ffmpeg_context_s)
    (p n : Int) :
    (playback_update_video_clock c p n).video_buffer = c.video_buffer ∧
    (playback_update_video_clock c p n).frame_drop_count =
      c.frame_drop_count := by
  unfold playback_update_video_clock
  dsimp only
  split_ifs <;> exact ⟨rfl, rfl⟩

theorem should_skip_preserves (c : ffmpeg_context_s) :
    (should_skip_video_frame c).2.time_base_num = c.time_base_num ∧
    (should_skip_video_frame c).2.time_base_den = c.time_base_den ∧
    (should_skip_video_frame c).2.video_buffer = c.video_buffer := by
  unfold should_skip_video_frame
  split_ifs <;> exact ⟨rfl, rfl, rfl⟩

/-- Counterexample to C8 as stated: the queue-feeding producer loop
(`ffmpeg_playback_thread`) never consults the skip policy.  At a clock
state where `should_skip_video_frame` returns true (video 150 ms, audio
200 ms, threshold 30 ms) the video packet is still decoded and its frame
pushed into the frame queue while `frame_drop_count` stays 0; and in the
loop that does consult the policy (`ffmpeg_update_next_frame`), a skip
decision on a packet without a timestamp leaves `video_pts` at its
previous value. -/
theorem producer_skip_counterexample :
    (should_skip_video_frame (mkSyncCtx 150 200 30)).1 = true ∧
    (playback_video_packet_step (mkSyncCtx 150 200 30) true
      [(pframe 150, true)] 0).video_buffer.count = 1 ∧
    (playback_video_packet_step (mkSyncCtx 150 200 30) true
      [(pframe 150, true)] 0).frame_drop_count = 0 ∧
    (ffmpeg_update_next_frame_video_step (mkSyncCtx 150 200 30)
      AV_NOPTS_VALUE).2 = false ∧
    (ffmpeg_update_next_frame_video_step (mkSyncCtx 150 200 30)
      AV_NOPTS_VALUE).1.video_pts = 150 := by
  decide

/-- Amended C8: only the pull-based decode loop
(`ffmpeg_update_next_frame`) evaluates `should_skip_video_frame` at packet
read time — when it returns true the packet is discarded without
decoding, and if the packet timestamp converts to a valid millisecond
value `video_pts` is advanced to that converted timestamp; when it
returns false the packet is decoded.  The queue-feeding playback thread
(`ffmpeg_playback_thread`) decodes every video packet and pushes each
valid decoded frame into the frame queue without consulting the skip
policy, leaving `frame_drop_count` untouched. -/
theorem producer_skip_spec (c : ffmpeg_context_s) (pkt_pts : Int) :
    ((should_skip_video_frame c).1 = true →
      (ffmpeg_update_next_frame_video_step c pkt_pts).2 = false ∧
      (pkt_pts ≠ AV_NOPTS_VALUE →
        pts_to_ms c.time_base_num c.time_base_den pkt_pts ≠ AV_NOPTS_VALUE →
        (ffmpeg_update_next_frame_video_step c pkt_pts).1.video_pts =
          pts_to_ms c.time_base_num c.time_base_den pkt_pts)) ∧
    ((should_skip_video_frame c).1 = false →
      (ffmpeg_update_next_frame_video_step c pkt_pts).2 = true) ∧
    (∀ (fr : AVFrame) (now : Int),
      ¬(fr.width = 0 ∨ fr.height = 0 ∨ fr.format = AV_PIX_FMT_NONE) →
      video_buffer_wf c.video_buffer = true →
      (playback_video_packet_step c true [(fr, true)] now).video_buffer.count =
        min (c.video_buffer.count + 1) VIDEO_BUFFER_SIZE ∧
      (playback_video_packet_step c true [(fr, true)] now).frame_drop_count =
        c.frame_drop_count) := by
  obtain ⟨htn, htd, -⟩ := should_skip_preserves c
  refine ⟨?_, ?_, ?_⟩
  · intro hskip
    constructor
    · simp [ffmpeg_update_next_frame_video_step, hskip]
    · intro hp hm
      simp [ffmpeg_update_next_frame_video_step, hskip, hp, htn, htd, hm]
  · intro hskip
    simp [ffmpeg_update_next_frame_video_step, hskip]
  · intro fr now hvalid hwf
    have hstep : playback_video_packet_step c true [(fr, true)] now =
        playback_handle_frame c fr true now := by
      simp [playback_video_packet_step]
    rw [hstep]
    unfold playback_handle_frame
    rw [if_neg hvalid]
    obtain ⟨hbuf, hdrop⟩ := playback_update_video_clock_preserves c fr.pts now
    constructor
    · show (video_buffer_push
        (playback_update_video_clock c fr.pts now).video_buffer
        (some fr) true).2.count = _
      rw [hbuf]
      exact (video_buffer_push_wf_min c.video_buffer fr hwf).2
    · show (playback_update_video_clock c fr.pts now).frame_drop_count = _
      exact hdrop

/-- Witness for the amended C8: a skipped packet at pts 100 advances
`video_pts` to 100 ms, and a pushed valid frame raises the queue count to
`min (0 + 1) 5`. -/
theorem producer_skip_spec_witness :
    (ffmpeg_update_next_frame_video_step (mkSyncCtx 150 200 30) 100).1.video_pts =
      pts_to_ms (mkSyncCtx 150 200 30).time_base_num
        (mkSyncCtx 150 200 30).time_base_den 100 ∧
    (playback_video_packet_step (mkSyncCtx 260 200 30) true
      [(pframe 260, true)] 0).video_buffer.count =
      min ((mkSyncCtx 260 200 30).video_buffer.count + 1) VIDEO_BUFFER_SIZE :=
  ⟨((producer_skip_spec (mkSyncCtx 150 200 30) 100).1 (by decide)).2
      (by decide) (by decide),
   ((producer_skip_spec (mkSyncCtx 260 200 30) 100).2.2 (pframe 260) 0
      (by decide) (by decide)).1⟩

/-- Claim C9: the stop command clears `is_playing` (and joins the worker
before returning); once `is_playing` is false the producer loop halts on
its very next iteration without touching the queue or the clock, so no
producer mutation follows the join inside stop; while paused the producer
re-checks its flags every 10 ms, bounding how long a stop can go
unobserved; and `ffmpeg_close` performs stop-and-join strictly before
destroying the frame queue. -/
theorem stop_join_safety :
    (∀ c : ffmpeg_context_s,
      (lv_ffmpeg_player_cmd_stop c).is_playing = false) ∧
    (∀ (c : ffmpeg_context_s) (inp : loop_input), c.is_playing = false →
      playback_thread_iter c inp = (c, false, 0)) ∧
    (∀ (c : ffmpeg_context_s) (inp : loop_input),
      c.is_playing = true → c.is_paused = true →
      playback_thread_iter c inp = (c, true, 10)) ∧
    (∀ c : ffmpeg_context_s, c.is_playing = true →
      c.video_buffer.initialized = true →
      ffmpeg_close_actions c =
        [close_action.stop_and_join, close_action.destroy_video_buffer,
         close_action.free_codecs_and_buffers]) := by
  refine ⟨?_, ?_, ?_, ?_⟩
  · intro c
    unfold lv_ffmpeg_player_cmd_stop
    split_ifs with h
    · rfl
    · simpa using h
  · intro c inp h
    simp [playback_thread_iter, h]
  · intro c inp h1 h2
    simp [playback_thread_iter, h1, h2]
  · intro c h1 h2
    simp [ffmpeg_close_actions, h1, h2]

/-- Witness for C9 at the concrete synchronized context: a stopped
producer halts at once with no state change, a paused one polls at 10 ms,
and teardown joins before destroying the queue. -/
theorem stop_join_safety_witness :
    playback_thread_iter
        ({ mkSyncCtx 150 200 30 with is_playing := false })
        loop_input.other_packet =
      ({ mkSyncCtx 150 200 30 with is_playing := false }, false, 0) ∧
    playback_thread_iter
        ({ mkSyncCtx 150 200 30 with is_paused := true })
        loop_input.other_packet =
      ({ mkSyncCtx 150 200 30 with is_paused := true }, true, 10) ∧
    ffmpeg_close_actions (mkSyncCtx 150 200 30) =
      [close_action.stop_and_join, close_action.destroy_video_buffer,
       close_action.free_codecs_and_buffers] :=
  ⟨stop_join_safety.2.1 _ loop_input.other_packet rfl,
   stop_join_safety.2.2.1 _ loop_input.other_packet rfl rfl,
   stop_join_safety.2.2.2 _ rfl (by decide)⟩

end LvFfmpeg
